import Mathlib

/-
Verification of the grid-based search engine of PyFstat
(`pyfstat/grid_based_searches.py`).

The Python code is shallowly embedded over exact rationals (ℚ):
numpy float arrays become `List ℚ`, structured arrays become a list of
rows together with a list of column names, and fallible Python code
(raising exceptions) is embedded in `Except String`.
-/

set_option maxRecDepth 4096

/-- Python `int()` truncation toward zero, on an exact rational. -/
def pyInt (q : ℚ) : ℤ :=
  if 0 ≤ q then ⌊q⌋ else -⌊-q⌋

/-- `np.linspace(start, stop, num, endpoint=True)` over exact rationals:
`num` evenly spaced samples from `start` to `stop` inclusive. -/
def linspace (start stop : ℚ) (num : ℕ) : List ℚ :=
  if num = 0 then []
  else if num = 1 then [start]
  else (List.range num).map (fun i : ℕ => start + (stop - start) * (i : ℚ) / ((num : ℚ) - 1))

/-- Embedding of `GridSearch._get_array_from_tuple`:
a length-1 tuple is kept as a single fixed value;
a length-3 tuple `(min, max, step)` with `input_arrays=False` is expanded by
`np.linspace(min, max, num=int((max - min)/step) + 1, endpoint=True)`;
anything else is used as an explicit coordinate array as given. -/
def getArrayFromTuple (input_arrays : Bool) : List ℚ → List ℚ
  | [a] => [a]
  | [a, b, c] =>
      if input_arrays = false then
        linspace a b (pyInt ((b - a) / c) + 1).toNat
      else
        [a, b, c]
  | x => x

/-- Maximal runs of decimal digits in a character list, as numbers;
the embedding of Python `re.findall(r"\d+", f)` followed by `int()`. -/
def digitRunsAux : List Char → Option ℕ → List ℕ
  | [], none => []
  | [], some n => [n]
  | c :: cs, acc =>
      if c.isDigit then
        let d := c.toNat - '0'.toNat
        match acc with
        | none => digitRunsAux cs (some d)
        | some n => digitRunsAux cs (some (10 * n + d))
      else
        match acc with
        | none => digitRunsAux cs none
        | some n => n :: digitRunsAux cs none

/-- All maximal digit runs of a string, in order. -/
def digitRuns (s : String) : List ℕ :=
  digitRunsAux s.data none

/-- Python `str.endswith`, evaluated on the underlying character lists. -/
def pyEndsWith (s suffix : String) : Bool :=
  decide (s.data.reverse.take suffix.data.length = suffix.data.reverse)

/-- Embedding of `GridSearch._get_tolerance_from_savetxt_fmt` for a single
column format string: an integer format (ending `d`) gives tolerances `(0, 0)`;
a significant-digits format (ending `g`) with precision `P` (the last digit run
of the format) gives `(10^(1-P), 0)`; a fixed-decimals format (ending `f`)
with `D` decimals gives `(0, 10^-D)`; any other format raises `ValueError`.
A `g`/`f` format with no digits raises `IndexError`
(from `re.findall(...)[-1]` on an empty match list). -/
def toleranceFromFmt (f : String) : Except String (ℚ × ℚ) :=
  if pyEndsWith f "d" then
    .ok (0, 0)
  else if pyEndsWith f "g" then
    match (digitRuns f).getLast? with
    | some p => .ok ((10 : ℚ) ^ ((1 : ℤ) - (p : ℤ)), 0)
    | none => .error "IndexError: list index out of range"
  else if pyEndsWith f "f" then
    match (digitRuns f).getLast? with
    | some d => .ok (0, (10 : ℚ) ^ (-(d : ℤ)))
    | none => .error "IndexError: list index out of range"
  else
    .error "ValueError: Cannot parse fprintf format to obtain recommended tolerance."

/-- Embedding of `np.setxor1d(a, b)`: the sorted unique symmetric difference.
Only emptiness of the result is consumed by the cache validator, so the
embedding keeps the symmetric-difference elements (deduplicated) without
sorting. -/
def setxor1d (a b : List String) : List String :=
  ((a.filter (fun x => decide (x ∉ b))) ++ (b.filter (fun x => decide (x ∉ a)))).dedup

/-- The header-fingerprint comparison step of
`GridSearch.check_old_data_is_okay_to_use`:
the stored parameter lines match the current ones iff
`len(np.setxor1d(old, new)) > 0` is false. -/
def paramsMatch (oldLines newLines : List String) : Bool :=
  decide ((setxor1d oldLines newLines).length = 0)

/-- Embedding of `np.allclose(a, b, rtol, atol)` over coordinate arrays:
elementwise `|a - b| <= atol + rtol * |b|`. -/
def allclose (a b : List ℚ) (rtol atol : ℚ) : Bool :=
  decide (a.length = b.length) &&
    (a.zip b).all (fun p => decide (|p.1 - p.2| ≤ atol + rtol * |p.2|))

/-- Modelled from the spec: the stored output result file
(written by `np.savetxt` and re-read through `utils.read_txt_file_with_header`
and `utils.read_parameters_dict_lines_from_file_header`, which are not under
`src/`) is modelled as the parsed content it round-trips: the `key = value`
provenance lines of the header, the column-name line, and the numeric table.
The spec's §4.6 format/tolerance rule guarantees that values read back from the
file match the stored ones within the per-column tolerance; the embedding
stores the exact values. -/
structure SavedFile where
  headerLines : List String
  colNames : List String
  rows : List (List ℚ)
deriving DecidableEq, Repr

/-- Outcome of `GridSearch.check_old_data_is_okay_to_use` when no exception is
raised: either the old data (Python returns the loaded array) or `False`. -/
inductive CheckResult where
  | reuse (data : SavedFile)
  | noReuse
deriving DecidableEq, Repr

/-- `np.shape` of a 1-D structured array (as returned by
`np.genfromtxt(..., names=True)`): the single-element tuple `(nrows,)`. -/
def npShapeStructured (rows : List (List ℚ)) : List ℕ := [rows.length]

/-- `np.shape` of a generator object such as `itertools.product(...)`:
`np.asarray` wraps it as a 0-d object array, so the shape tuple is `()`. -/
def npShapeGenerator : List ℕ := []

/-- Python tuple indexing: `t[i]` raises `IndexError` when out of range. -/
def tupleIndex (l : List ℕ) (i : ℕ) : Except String ℕ :=
  match l.get? i with
  | some v => .ok v
  | none => .error "IndexError: tuple index out of range"

/-- The SFT-staleness step of `check_old_data_is_okay_to_use`: when an
`sftfilepattern` is given (`some` modification times), the output file is
reusable only if it is not older than the oldest matching SFT file;
`min([])` on an empty match list raises `ValueError`. -/
def sftFreshness (sftMtimes : Option (List ℤ)) (outMtime : ℤ) : Except String Bool :=
  match sftMtimes with
  | none => .ok true
  | some ts =>
    match ts.min? with
    | none => .error "ValueError: min() arg is an empty sequence"
    | some m => .ok (decide (¬ outMtime < m))


/-- Python dict lookup `d[key]`, raising `KeyError` when absent. -/
def dictGet (d : List (String × ℚ)) (key : String) : Except String ℚ :=
  match d.find? (fun p => decide (p.1 = key)) with
  | some p => .ok p.2
  | none => .error "KeyError"

/-- The full-dict part of `GridSearch._get_tolerance_from_savetxt_fmt`:
the `(rtol, atol)` dictionaries over all output columns, keyed like the
format dictionary; the first unparsable format raises. -/
def toleranceDicts : List (String × String) →
    Except String (List (String × ℚ) × List (String × ℚ))
  | [] => .ok ([], [])
  | (k, f) :: rest =>
    match toleranceFromFmt f with
    | .error e => .error e
    | .ok (r, a) =>
      match toleranceDicts rest with
      | .error e => .error e
      | .ok (rs, atl) => .ok ((k, r) :: rs, (k, a) :: atl)

/-- Position of a named column in a structured array's dtype
(the first field with that name; `KeyError` when absent). -/
def findColIdx (colNames : List String) (key : String) : Except String ℕ :=
  match colNames with
  | [] => .error "KeyError"
  | c :: rest =>
    if c = key then .ok 0
    else
      match findColIdx rest key with
      | .ok i => .ok (i + 1)
      | .error e => .error e

/-- Field access `data[key]` on a structured array: the column of values. -/
def getColumn (colNames : List String) (rows : List (List ℚ)) (key : String) :
    Except String (List ℚ) :=
  match findColIdx colNames key with
  | .error e => .error e
  | .ok i =>
    rows.mapM (fun r =>
      match r.get? i with
      | some v => .ok v
      | none => .error "IndexError: row index out of range")

/-- Embedding of `GridSearch.check_old_data_is_okay_to_use` (the decision
sequence after `run()` has built `input_data`): bail out on `clean`, missing
output file, stale output file, mismatched header-parameter set (via
`np.setxor1d`), mismatched row count, or fewer stored columns than input
parameter columns; then compare every input column with `np.allclose` under
the per-column tolerances derived from the output formats. In the
fewer-columns branch the log message evaluates `np.shape(old_data)[1]` on the
1-D structured array, which raises `IndexError` before the `return False`
line is reached. In the row-count branch the log message only evaluates
`np.shape(...)[0]`, which succeeds. -/
def checkOldDataIsOkayToUse (clean : Bool) (store : Option SavedFile)
    (sftMtimes : Option (List ℤ)) (outMtime : ℤ)
    (newParamLines : List String) (searchKeys : List String)
    (inputData : List (List ℚ)) (fmts : List (String × String)) :
    Except String CheckResult :=
  if clean then .ok .noReuse
  else
    match store with
    | none => .ok .noReuse
    | some old =>
      match sftFreshness sftMtimes outMtime with
      | .error e => .error e
      | .ok false => .ok .noReuse
      | .ok true =>
        if 0 < (setxor1d old.headerLines newParamLines).length then .ok .noReuse
        else if old.rows.length ≠ inputData.length then .ok .noReuse
        else if old.colNames.length < searchKeys.length then
          match tupleIndex (npShapeStructured old.rows) 1 with
          | .error e => .error e
          | .ok _ => .ok .noReuse
        else
          match toleranceDicts fmts with
          | .error e => .error e
          | .ok tols =>
            match searchKeys.mapM (fun key =>
                (match getColumn old.colNames old.rows key with
                | .error e => .error e
                | .ok oldCol =>
                  match getColumn searchKeys inputData key with
                  | .error e => .error e
                  | .ok newCol =>
                    match dictGet tols.1 key with
                    | .error e => .error e
                    | .ok r =>
                      match dictGet tols.2 key with
                      | .error e => .error e
                      | .ok a => .ok (allclose oldCol newCol r a) :
                  Except String Bool)) with
            | .error e => .error e
            | .ok columnMatches =>
              if columnMatches.all (fun m => m) then .ok (.reuse old)
              else .ok .noReuse

/-- The search configuration fields of `GridSearch` that the run/cache logic
reads: the ordered parameter names, the per-parameter axis tuples, the
`input_arrays` and `clean` flags, the serialized parameter header lines
(modelled from the spec: `pprint_init_params_dict` lives in the base class
outside `src/`, the spec describes it as the serialized set of configuration
`key = value` strings), and the per-output-column `np.savetxt` formats. -/
structure GridConfig where
  searchKeys : List String
  axes : List (List ℚ)
  input_arrays : Bool
  clean : Bool
  paramLines : List String
  fmts : List (String × String)

/-- `itertools.product` over the per-axis coordinate arrays, in axis order
(leftmost axis varies slowest), as used by `GridSearch._get_input_data_array`. -/
def cartProd : List (List ℚ) → List (List ℚ)
  | [] => [[]]
  | xs :: rest => xs.flatMap (fun v => (cartProd rest).map (fun t => v :: t))

/-- `GridSearch._set_output_keys` for the plain search without per-detector
statistics and without BSGL: the input parameter columns plus `twoF`. -/
def outputColNames (searchKeys : List String) : List String :=
  searchKeys ++ ["twoF"]

/-- Outcome of one `GridSearch.run()` call: the inputs+outputs table
(`self.data`), the output-file store after the run, and how many times the
detection-statistic evaluator was invoked. -/
structure RunResult where
  table : List (List ℚ)
  store : Option SavedFile
  evalCalls : ℕ
deriving DecidableEq, Repr

/-- Embedding of `GridSearch.run` (plain variant, `return_data=False`),
with the opaque detection-statistic evaluator `evalPoint` supplied as a
function from a grid point to its statistic (per spec §6 the evaluator is an
external collaborator). With `clean=True` the iterable is the
`itertools.product` generator and `input_data` was never created, so the
progress message evaluates `np.shape(iterable)[0]` on a shape-`()` object
(raising `IndexError`); even past that, `np.zeros(len(self.input_data))`
would raise `AttributeError`. With `clean=False` the cache check either
returns the old data unchanged (zero evaluator calls, nothing re-saved) or
the grid is evaluated point by point and saved
(modelled from the spec: `save_array_to_disk` writes the header lines, the
column-name line and the rows; `np.savetxt` itself is outside `src/` and the
store keeps the exact values). -/
def runGrid (cfg : GridConfig) (sftMtimes : Option (List ℤ)) (outMtime : ℤ)
    (store : Option SavedFile) (evalPoint : List ℚ → ℚ) :
    Except String RunResult :=
  let coordArrays := cfg.axes.map (getArrayFromTuple cfg.input_arrays)
  if cfg.clean then
    match tupleIndex npShapeGenerator 0 with
    | .error e => .error e
    | .ok _ => .error "AttributeError: GridSearch object has no attribute input_data"
  else
    let inputData := cartProd coordArrays
    match checkOldDataIsOkayToUse cfg.clean store sftMtimes outMtime
        cfg.paramLines cfg.searchKeys inputData cfg.fmts with
    | .error e => .error e
    | .ok (.reuse old) => .ok ⟨old.rows, store, 0⟩
    | .ok .noReuse =>
      let rows := inputData.map (fun p => p ++ [evalPoint p])
      .ok ⟨rows, some ⟨cfg.paramLines, outputColNames cfg.searchKeys, rows⟩,
           rows.length⟩

/-- Both tolerance dictionaries have a nonnegative entry for `key`. -/
def tolOkFor (tols : List (String × ℚ) × List (String × ℚ)) (key : String) : Bool :=
  match dictGet tols.1 key, dictGet tols.2 key with
  | .ok r, .ok a => decide (0 ≤ r) && decide (0 ≤ a)
  | _, _ => false

/-- The transient `(t0, tau)` window grid handed back by the evaluator
(`self.search.windowRange`): start-time origin and step, duration origin and
step. -/
structure WindowRange where
  t0 : ℚ
  dt0 : ℚ
  tau : ℚ
  dtau : ℚ

/-- Row-major cell indices of a 2-D F-statistic map. -/
def idx2d (m : List (List ℚ)) : List (ℕ × ℕ) :=
  (List.range m.length).flatMap
    (fun i => (List.range (m.getD i []).length).map (fun j => (i, j)))

/-- Value of a 2-D map at a cell index (0 outside the map). -/
def val2d (m : List (List ℚ)) (p : ℕ × ℕ) : ℚ :=
  (m.getD p.1 []).getD p.2 0

/-- Modelled from the spec: `FstatMap.get_maxF_idx()` of the transient
F-stat map object lives in `pyfstat.tcw_fstat_map_funcs`, not under `src/`;
per spec §4.4 it returns the index of the maximizing cell of the
`(start-time, duration)` partial F-statistic surface. The embedding takes
the row-major argmax (first maximizing cell). -/
def getMaxFIdx (m : List (List ℚ)) : ℕ × ℕ :=
  (idx2d m).foldl (fun best p => if val2d m best < val2d m p then p else best) (0, 0)

/-- The transient extras a `TransientGridSearch._get_single_cand_results`
call stores into the candidate row. -/
structure TransientCandExtras where
  t0_ML : ℚ
  tau_ML : ℚ
  mp : Option (ℚ × ℚ)
deriving DecidableEq, Repr

/-- Embedding of the transient-window part of
`TransientGridSearch._get_single_cand_results` (lines 1118-1133): with a
transient window enabled, the maximizing index `(i, j)` of the F-stat map
gives `t0_ML = windowRange.t0 + i * windowRange.dt0` and
`tau_ML = windowRange.tau + j * windowRange.dtau`; when `BtSG` is set, the
map's maximum-a-posteriori pair `(t0_MP, tau_MP)` is stored as well. -/
def transientCandResults (wr : WindowRange) (fstatMap : List (List ℚ))
    (btsg : Bool) (t0MP tauMP : ℚ) : TransientCandExtras :=
  let maxidx := getMaxFIdx fstatMap
  { t0_ML := wr.t0 + (maxidx.1 : ℚ) * wr.dt0
    tau_ML := wr.tau + (maxidx.2 : ℚ) * wr.dtau
    mp := if btsg then some (t0MP, tauMP) else none }

/-- The slice of constructor state that claims about `__init__` consult:
which detection statistic was selected and whether
`_initiate_search_object()` ran (it is only reached after the
`BSGL`/`BtSG` compatibility check). -/
structure InitResult where
  detstat : String
  searchObjectCreated : Bool
deriving DecidableEq, Repr

/-- Embedding of the configuration-validation part of
`TransientGridSearch.__init__`: requesting both `BSGL` and `BtSG` raises
`ValueError` before `_initiate_search_object()` is called; otherwise the
detection statistic is selected and the search object is created. -/
def transientGridSearchInit (BSGL BtSG : Bool) : Except String InitResult :=
  if BSGL && BtSG then
    .error "ValueError: Please choose only one of [BSGL,BtSG]."
  else
    let detstat := if BSGL then "log10BSGL" else if BtSG then "lnBtSG" else "maxTwoF"
    .ok { detstat := detstat, searchObjectCreated := true }

/-- Embedding of the configuration-validation part of
`SearchOverGridFile.__init__`: first `nsegs > 1` with a transient window is
rejected, then both `BSGL` and `BtSG` together, all before
`_initiate_search_object()`. -/
def searchOverGridFileInit (nsegs : ℕ) (transientWindowType : Option String)
    (BSGL BtSG : Bool) : Except String InitResult :=
  if nsegs > 1 && transientWindowType.isSome then
    .error "ValueError: nsegs is incompatible with transient options."
  else if BSGL && BtSG then
    .error "ValueError: Please choose only one of [BSGL,BtSG]."
  else
    let detstat :=
      if BSGL then "log10BSGL"
      else if BtSG then "lnBtSG"
      else if transientWindowType.isSome then "maxTwoF"
      else "twoF"
    .ok { detstat := detstat, searchObjectCreated := true }

/-- Embedding of `np.argmax` over a 1-D array: the index of the first
occurrence of the maximum value (0 on an empty array, where numpy raises). -/
def npArgmax (l : List ℚ) : ℕ :=
  (List.range l.length).foldl
    (fun best i => if l.getD best 0 < l.getD i 0 then i else best) 0

/-- Embedding of `GridSearch.get_max_det_stat` (and of `get_max_twoF` when
`detstat = "twoF"`): the dictionary of all output-column values at the row
where `np.argmax(self.data[self.detstat])` points. -/
def getMaxDetStat (colNames : List String) (rows : List (List ℚ))
    (detstat : String) : Except String (List (String × ℚ)) :=
  match getColumn colNames rows detstat with
  | .error e => .error e
  | .ok col =>
    let idx := npArgmax col
    colNames.mapM (fun key =>
      (match getColumn colNames rows key with
      | .error e => .error e
      | .ok c =>
        match c.get? idx with
        | some v => .ok (key, v)
        | none => .error "IndexError: index out of bounds" :
      Except String (String × ℚ)))

/-- Total variant of `findColIdx` (0 when absent), used to state results. -/
def colFieldIdx (colNames : List String) (key : String) : ℕ :=
  match findColIdx colNames key with
  | .ok i => i
  | .error _ => 0

/-- Embedding of `GridSearch.get_max_twoF`: identical to `get_max_det_stat`
but always maximizing over the `twoF` column. -/
def getMaxTwoF (colNames : List String) (rows : List (List ℚ)) :
    Except String (List (String × ℚ)) :=
  getMaxDetStat colNames rows "twoF"

/-- Error class raised while populating one result row. -/
inductive GridError where
  | schemaError (key : String)
  | indexError
deriving DecidableEq, Repr

/-- Embedding of the generic `GridSearch._get_single_cand_results` row
population: the candidate dict is built from the named parameters, `twoF`,
the optional per-detector statistics and the optional extra detection
statistic, then every declared output column is looked up by key, raising
the fatal `Could not get value for key ...` error when a key is missing. -/
def getSingleCandResultsGeneric (searchKeys : List String) (vals : List ℚ)
    (twoF : ℚ) (singleFstats : List (String × ℚ)) (detstat : String)
    (detstatVal : ℚ) (outputKeys : List String) :
    Except GridError (List (String × ℚ)) :=
  let thisCand := searchKeys.zip vals ++ [("twoF", twoF)] ++ singleFstats ++
    (if detstat ≠ "twoF" then [(detstat, detstatVal)] else [])
  outputKeys.mapM (fun key =>
    (match thisCand.find? (fun p => decide (p.1 = key)) with
    | some p => .ok (key, p.2)
    | none => .error (.schemaError key) : Except GridError (String × ℚ)))

/-- The candidate list built by `GridGlitchSearch._get_single_cand_results`:
the positional parameter values, then `twoF`, then the per-detector
statistics, then (only if the detection statistic were not `twoF`, which
`GridGlitchSearch.__init__` rules out by hardcoding `BSGL=False`) the extra
statistic. -/
def glitchCand (vals : List ℚ) (twoF : ℚ) (singleF : List ℚ)
    (detstat : String) (detstatVal : ℚ) : List ℚ :=
  vals ++ [twoF] ++ singleF ++ (if detstat ≠ "twoF" then [detstatVal] else [])

/-- The assignment loop of `GridGlitchSearch._get_single_cand_results`:
`for k, key in enumerate(self.output_keys): data[key][n] = thisCand[k]` —
purely positional; `thisCand[k]` raises `IndexError` when the candidate list
is shorter than the output keys, and no per-key membership check happens. -/
def assignPositional : List String → List ℚ →
    Except GridError (List (String × ℚ))
  | [], _ => .ok []
  | _ :: _, [] => .error .indexError
  | key :: keys, v :: vs =>
    match assignPositional keys vs with
    | .ok rest => .ok ((key, v) :: rest)
    | .error e => .error e

/-- Embedding of `GridGlitchSearch._get_single_cand_results`:
build the positional candidate list and assign it slot by slot. -/
def getSingleCandResultsGlitch (outputKeys : List String) (vals : List ℚ)
    (twoF : ℚ) (singleF : List ℚ) (detstat : String) (detstatVal : ℚ) :
    Except GridError (List (String × ℚ)) :=
  assignPositional outputKeys (glitchCand vals twoF singleF detstat detstatVal)

/-- The end-to-end configuration of spec §8: grid
`{F0: (10.0, 10.002, 0.001), Alpha: [0.5]}`, default `%.16g` Doppler and
`%.9g` statistic output formats, `clean=False`. -/
def cfg0 : GridConfig :=
  { searchKeys := ["F0", "Alpha"]
    axes := [[10, 10002/1000, 1/1000], [1/2]]
    input_arrays := false
    clean := false
    paramLines := ["label = test", "outdir = data"]
    fmts := [("F0", "%.16g"), ("Alpha", "%.16g"), ("twoF", "%.9g")] }

/-- The table the first run of `cfg0` with the constant-1.0 evaluator
produces: three rows, `F0` walking 10.000, 10.001, 10.002, `Alpha` fixed at
0.5, statistic 1.0 everywhere. -/
def table0 : List (List ℚ) :=
  [[10, 1/2, 1], [10001/1000, 1/2, 1], [10002/1000, 1/2, 1]]

/-- The output file saved by the first run of `cfg0`. -/
def saved0 : SavedFile :=
  { headerLines := cfg0.paramLines
    colNames := ["F0", "Alpha", "twoF"]
    rows := table0 }


theorem pyInt_natCast (k : ℕ) : pyInt (k : ℚ) = (k : ℤ) := by
  unfold pyInt
  rw [if_pos (by positivity), Int.floor_natCast]

theorem getArrayFromTuple_even_division (a b c : ℚ) (k : ℕ) (hc : c ≠ 0)
    (hk : b - a = (k : ℚ) * c) :
    getArrayFromTuple false [a, b, c] =
      (List.range (k + 1)).map (fun i : ℕ => a + (i : ℚ) * c) := by
  have hq : (b - a) / c = (k : ℚ) := by rw [hk, mul_div_cancel_right₀ _ hc]
  have hnum : (pyInt ((b - a) / c) + 1).toNat = k + 1 := by
    rw [hq, pyInt_natCast]; omega
  show linspace a b (pyInt ((b - a) / c) + 1).toNat = _
  rw [hnum]
  cases k with
  | zero =>
      have hb : b = a := by
        have : b - a = 0 := by rw [hk]; push_cast; ring
        linarith
      have h1 : List.range 1 = [0] := rfl
      simp [linspace, h1, hb]
  | succ k' =>
      have hk1 : ((k' + 1 : ℕ) : ℚ) ≠ 0 := by positivity
      unfold linspace
      rw [if_neg (by omega), if_neg (by omega)]
      refine List.map_congr_left ?_
      intro i hi
      have hden : ((k' + 1 + 1 : ℕ) : ℚ) - 1 = ((k' + 1 : ℕ) : ℚ) := by
        push_cast; ring
      rw [hden, hk]
      field_simp
      ring

/-- C1: for every 3-tuple axis specification `(min, max, step)` with
`input_arrays=False` and the step dividing `max - min` evenly, axis expansion
(`GridSearch._get_array_from_tuple`) returns an evenly spaced array from min
to max inclusive with exactly `round((max-min)/step) + 1` points, whose first
element equals min and whose last element equals max. -/
theorem axis_expansion_even_division (a b c : ℚ) (k : ℕ) (hc : c ≠ 0)
    (hk : b - a = (k : ℚ) * c) :
    round ((b - a) / c) = (k : ℤ) ∧
    (getArrayFromTuple false [a, b, c]).length = k + 1 ∧
    (getArrayFromTuple false [a, b, c]).get? 0 = some a ∧
    (getArrayFromTuple false [a, b, c]).get? k = some b ∧
    ∀ i : ℕ, i ≤ k →
      (getArrayFromTuple false [a, b, c]).get? i = some (a + (i : ℚ) * c) := by
  have harr := getArrayFromTuple_even_division a b c k hc hk
  have hq : (b - a) / c = (k : ℚ) := by rw [hk, mul_div_cancel_right₀ _ hc]
  have hget : ∀ i : ℕ, i ≤ k →
      (getArrayFromTuple false [a, b, c]).get? i = some (a + (i : ℚ) * c) := by
    intro i hi
    rw [harr, List.get?_map, List.get?_range (by omega)]
    rfl
  refine ⟨by rw [hq]; exact round_natCast k, by rw [harr]; simp, ?_, ?_, hget⟩
  · have h0 := hget 0 (Nat.zero_le k)
    simpa using h0
  · have hk' := hget k le_rfl
    rw [hk']
    congr 1
    linarith [hk]

/-- Witness for C1 at the spec's concrete axis `(10.0, 10.002, 0.001)`. -/
theorem axis_expansion_even_division_witness :
    (getArrayFromTuple false [10, 10002/1000, 1/1000]).length = 3 ∧
    (getArrayFromTuple false [10, 10002/1000, 1/1000]).get? 0 = some 10 ∧
    (getArrayFromTuple false [10, 10002/1000, 1/1000]).get? 2 = some (10002/1000) :=
  have h := axis_expansion_even_division 10 (10002/1000) (1/1000) 2
    (by norm_num) (by norm_num)
  ⟨h.2.1, h.2.2.1, h.2.2.2.1⟩

/-- C3: cache-comparison tolerances derive from each column's output format:
an integer format (ending `d`) gives `(rtol, atol) = (0, 0)`; a
significant-digits format (ending `g`) with precision `P` gives
`rtol = 10^(1-P)`, `atol = 0`; a fixed-decimals format (ending `f`) with `D`
decimals gives `rtol = 0`, `atol = 10^-D`; any other format specifier raises
a `ValueError` configuration error. -/
theorem tolerance_from_fmt_specifier (f : String) (P D : ℕ) :
    (pyEndsWith f "d" = true → toleranceFromFmt f = .ok (0, 0)) ∧
    (pyEndsWith f "d" = false → pyEndsWith f "g" = true →
      (digitRuns f).getLast? = some P →
      toleranceFromFmt f = .ok ((10 : ℚ) ^ ((1 : ℤ) - (P : ℤ)), 0)) ∧
    (pyEndsWith f "d" = false → pyEndsWith f "g" = false →
      pyEndsWith f "f" = true → (digitRuns f).getLast? = some D →
      toleranceFromFmt f = .ok (0, (10 : ℚ) ^ (-(D : ℤ)))) ∧
    (pyEndsWith f "d" = false → pyEndsWith f "g" = false →
      pyEndsWith f "f" = false →
      toleranceFromFmt f =
        .error "ValueError: Cannot parse fprintf format to obtain recommended tolerance.") := by
  unfold toleranceFromFmt
  refine ⟨fun h1 => ?_, fun h1 h2 h3 => ?_, fun h1 h2 h3 h4 => ?_, fun h1 h2 h3 => ?_⟩ <;>
    simp_all

/-- Witness for C3 at the formats `%d`, `%.16g`, `%.6f` and `%s`. -/
theorem tolerance_from_fmt_specifier_witness :
    toleranceFromFmt "%d" = .ok (0, 0) ∧
    toleranceFromFmt "%.16g" = .ok ((10 : ℚ) ^ ((1 : ℤ) - (16 : ℕ)), 0) ∧
    toleranceFromFmt "%.6f" = .ok (0, (10 : ℚ) ^ (-(6 : ℕ) : ℤ)) ∧
    toleranceFromFmt "%s" =
      .error "ValueError: Cannot parse fprintf format to obtain recommended tolerance." :=
  ⟨(tolerance_from_fmt_specifier "%d" 0 0).1 rfl,
   (tolerance_from_fmt_specifier "%.16g" 16 0).2.1 rfl rfl rfl,
   (tolerance_from_fmt_specifier "%.6f" 0 6).2.2.1 rfl rfl rfl rfl,
   (tolerance_from_fmt_specifier "%s" 0 0).2.2.2 rfl rfl rfl⟩

theorem setxor1d_eq_nil_iff (a b : List String) :
    setxor1d a b = [] ↔ (∀ x, x ∈ a ↔ x ∈ b) := by
  unfold setxor1d
  rw [List.dedup_eq_nil, List.append_eq_nil, List.filter_eq_nil, List.filter_eq_nil]
  simp only [decide_eq_true_eq, not_not]
  constructor
  · rintro ⟨hab, hba⟩ x
    exact ⟨fun hx => hab x hx, fun hx => hba x hx⟩
  · intro h
    exact ⟨fun x hx => (h x).mp hx, fun x hx => (h x).mpr hx⟩

theorem paramsMatch_iff (a b : List String) :
    paramsMatch a b = true ↔ (∀ x, x ∈ a ↔ x ∈ b) := by
  unfold paramsMatch
  rw [decide_eq_true_eq, List.length_eq_zero, setxor1d_eq_nil_iff]

/-- C4: fingerprint comparison during cache validation is order-independent
set equality: permuted sets of serialized parameter lines still match, while
adding or removing a single (fresh) line makes the validator report a
mismatch. -/
theorem fingerprint_set_equality (lines other : List String) (l : String) :
    (lines.Perm other → paramsMatch lines other = true) ∧
    (l ∉ lines → paramsMatch lines (l :: lines) = false) ∧
    (l ∉ lines → paramsMatch (l :: lines) lines = false) := by
  refine ⟨fun hp => ?_, fun hl => ?_, fun hl => ?_⟩
  · rw [paramsMatch_iff]
    intro x
    exact hp.mem_iff
  · rw [Bool.eq_false_iff]
    intro hmatch
    exact hl (((paramsMatch_iff _ _).mp hmatch l).mpr (List.mem_cons_self l lines))
  · rw [Bool.eq_false_iff]
    intro hmatch
    exact hl (((paramsMatch_iff _ _).mp hmatch l).mp (List.mem_cons_self l lines))

/-- Witness for C4 on a two-line header. -/
theorem fingerprint_set_equality_witness :
    paramsMatch ["A = 1", "B = 2"] ["B = 2", "A = 1"] = true ∧
    paramsMatch ["A = 1", "B = 2"] ["C = 3", "A = 1", "B = 2"] = false ∧
    paramsMatch ["C = 3", "A = 1", "B = 2"] ["A = 1", "B = 2"] = false :=
  have h := fingerprint_set_equality ["A = 1", "B = 2"] ["B = 2", "A = 1"] "C = 3"
  have hperm : List.Perm ["A = 1", "B = 2"] ["B = 2", "A = 1"] :=
    List.Perm.swap "B = 2" "A = 1" []
  have hnotmem : "C = 3" ∉ ["A = 1", "B = 2"] := by simp
  ⟨h.1 hperm,
   (fingerprint_set_equality ["A = 1", "B = 2"] ["B = 2", "A = 1"] "C = 3").2.1 hnotmem,
   h.2.2 hnotmem⟩

/-- C7: requesting both alternative detection statistics (`BSGL` and `BtSG`)
is rejected at construction time with a configuration error, for every
`TransientGridSearch` and every `SearchOverGridFile`; since the error is
raised before `_initiate_search_object()`, no search object is created. -/
theorem both_statistics_rejected (nsegs : ℕ) (twt : Option String) :
    transientGridSearchInit true true =
      .error "ValueError: Please choose only one of [BSGL,BtSG]." ∧
    ∃ e, searchOverGridFileInit nsegs twt true true = .error e := by
  refine ⟨rfl, ?_⟩
  unfold searchOverGridFileInit
  by_cases h : (decide (nsegs > 1) && twt.isSome) = true
  · rw [if_pos h]
    exact ⟨_, rfl⟩
  · rw [if_neg h]
    exact ⟨_, rfl⟩

theorem assignPositional_cases (keys : List String) (cand : List ℚ) :
    assignPositional keys cand = .ok (keys.zip cand) ∨
    assignPositional keys cand = .error .indexError := by
  induction keys generalizing cand with
  | nil => left; rfl
  | cons k ks ih =>
    cases cand with
    | nil => right; rfl
    | cons v vs =>
      rcases ih vs with h | h
      · left; simp [assignPositional, h]
      · right; simp [assignPositional, h]

theorem assignPositional_zip (keys : List String) (cand : List ℚ)
    (h : keys.length ≤ cand.length) :
    assignPositional keys cand = .ok (keys.zip cand) := by
  induction keys generalizing cand with
  | nil => rfl
  | cons k ks ih =>
    cases cand with
    | nil => simp at h
    | cons v vs =>
      simp [assignPositional, ih vs (by simpa using h)]

/-- C10: `GridGlitchSearch._get_single_cand_results` assigns the k-th
computed value to the k-th output column purely by position with no per-key
membership check, so the fatal `Could not get value for key` schema error of
the generic dict-based path (which the last conjunct shows is reachable
there) can never be raised by the glitch variant. -/
theorem glitch_positional_no_schema_error (outputKeys : List String)
    (vals : List ℚ) (twoF : ℚ) (singleF : List ℚ) (detstat : String)
    (detstatVal : ℚ) (key : String) :
    getSingleCandResultsGlitch outputKeys vals twoF singleF detstat detstatVal ≠
      Except.error (GridError.schemaError key) ∧
    (outputKeys.length ≤ (glitchCand vals twoF singleF detstat detstatVal).length →
      getSingleCandResultsGlitch outputKeys vals twoF singleF detstat detstatVal =
        .ok (outputKeys.zip (glitchCand vals twoF singleF detstat detstatVal))) ∧
    getSingleCandResultsGeneric [] [] 0 [] "twoF" 0 ["foo"] =
      Except.error (GridError.schemaError "foo") := by
  refine ⟨?_, fun h => assignPositional_zip _ _ h, ?_⟩
  · unfold getSingleCandResultsGlitch
    rcases assignPositional_cases outputKeys
        (glitchCand vals twoF singleF detstat detstatVal) with h | h <;> simp [h]
  · rfl

/-- Witness for C10 on a three-column glitch row. -/
theorem glitch_positional_no_schema_error_witness :
    getSingleCandResultsGlitch ["F0", "twoF"] [42] 7 [] "twoF" 0 =
      .ok [("F0", 42), ("twoF", 7)] ∧
    getSingleCandResultsGlitch ["F0", "twoF"] [42] 7 [] "twoF" 0 ≠
      Except.error (GridError.schemaError "twoF") :=
  have h := glitch_positional_no_schema_error ["F0", "twoF"] [42] 7 [] "twoF" 0 "twoF"
  ⟨by rw [h.2.1 (by norm_num [glitchCand])]; norm_num [glitchCand], h.1⟩

theorem foldl_argmax2d_ge (m : List (List ℚ)) (l : List (ℕ × ℕ)) (b : ℕ × ℕ) :
    val2d m b ≤
      val2d m (l.foldl (fun best p => if val2d m best < val2d m p then p else best) b) ∧
    ∀ p ∈ l, val2d m p ≤
      val2d m (l.foldl (fun best p => if val2d m best < val2d m p then p else best) b) := by
  induction l generalizing b with
  | nil => simp
  | cons q qs ih =>
    simp only [List.foldl_cons]
    rcases ih (if val2d m b < val2d m q then q else b) with ⟨ha, hl⟩
    have h1 : val2d m b ≤ val2d m (if val2d m b < val2d m q then q else b) := by
      by_cases h : val2d m b < val2d m q
      · rw [if_pos h]; linarith
      · rw [if_neg h]
    have h2 : val2d m q ≤ val2d m (if val2d m b < val2d m q then q else b) := by
      by_cases h : val2d m b < val2d m q
      · rw [if_pos h]
      · rw [if_neg h]; linarith [not_lt.mp h]
    refine ⟨le_trans h1 ha, ?_⟩
    intro p hp
    rcases List.mem_cons.mp hp with rfl | hp'
    · exact le_trans h2 ha
    · exact hl p hp'

/-- C6: for a grid point evaluated with a transient window enabled, the
stored maximum-likelihood estimates are `t0_ML = windowRange.t0 + i*dt0` and
`tau_ML = windowRange.tau + j*dtau` where `(i, j)` is the index of the
maximizing cell of the `(start-time, duration)` F-statistic map, and when
the BtSG statistic is requested the evaluator's maximum-a-posteriori pair
`(t0_MP, tau_MP)` is stored as well. -/
theorem transient_ml_map_estimates (wr : WindowRange) (m : List (List ℚ))
    (btsg : Bool) (t0MP tauMP : ℚ) :
    (transientCandResults wr m btsg t0MP tauMP).t0_ML =
      wr.t0 + ((getMaxFIdx m).1 : ℚ) * wr.dt0 ∧
    (transientCandResults wr m btsg t0MP tauMP).tau_ML =
      wr.tau + ((getMaxFIdx m).2 : ℚ) * wr.dtau ∧
    (∀ p ∈ idx2d m, val2d m p ≤ val2d m (getMaxFIdx m)) ∧
    (btsg = true →
      (transientCandResults wr m btsg t0MP tauMP).mp = some (t0MP, tauMP)) ∧
    (btsg = false → (transientCandResults wr m btsg t0MP tauMP).mp = none) := by
  refine ⟨rfl, rfl, ?_, fun h => by simp [transientCandResults, h],
    fun h => by simp [transientCandResults, h]⟩
  intro p hp
  exact (foldl_argmax2d_ge m (idx2d m) (0, 0)).2 p hp

/-- Witness for C6 on a 2x2 F-stat map whose maximum sits at cell (0, 1). -/
theorem transient_ml_map_estimates_witness :
    (transientCandResults ⟨100, 10, 50, 5⟩ [[1, 3], [2, 0]] true 77 88).t0_ML = 100 ∧
    (transientCandResults ⟨100, 10, 50, 5⟩ [[1, 3], [2, 0]] true 77 88).tau_ML = 55 ∧
    val2d [[1, 3], [2, 0]] (1, 0) ≤ val2d [[1, 3], [2, 0]] (getMaxFIdx [[1, 3], [2, 0]]) ∧
    (transientCandResults ⟨100, 10, 50, 5⟩ [[1, 3], [2, 0]] true 77 88).mp =
      some (77, 88) := by
  have h := transient_ml_map_estimates ⟨100, 10, 50, 5⟩ [[1, 3], [2, 0]] true 77 88
  have hidx : getMaxFIdx [[1, 3], [2, 0]] = (0, 1) := by
    have hranges : idx2d [[(1 : ℚ), 3], [2, 0]] = [(0, 0), (0, 1), (1, 0), (1, 1)] := by
      simp [idx2d, List.range_succ]
    have v00 : val2d [[(1 : ℚ), 3], [2, 0]] (0, 0) = 1 := rfl
    have v01 : val2d [[(1 : ℚ), 3], [2, 0]] (0, 1) = 3 := rfl
    have v10 : val2d [[(1 : ℚ), 3], [2, 0]] (1, 0) = 2 := rfl
    have v11 : val2d [[(1 : ℚ), 3], [2, 0]] (1, 1) = 0 := rfl
    rw [getMaxFIdx, hranges]
    norm_num [List.foldl_cons, List.foldl_nil, v00, v01, v10, v11,
      -Prod.mk_zero_zero, -Prod.mk_one_one]
  have hmem : (1, 0) ∈ idx2d [[(1 : ℚ), 3], [2, 0]] := by
    simp [idx2d, List.range_succ]
  refine ⟨?_, ?_, h.2.2.1 (1, 0) hmem, h.2.2.2.1 rfl⟩
  · rw [h.1, hidx]; norm_num
  · rw [h.2.1, hidx]; norm_num

theorem mapM_ok_of_forall {α β ε : Type} (f : α → Except ε β) (g : α → β)
    (l : List α) (h : ∀ a ∈ l, f a = .ok (g a)) :
    l.mapM f = .ok (l.map g) := by
  induction l with
  | nil => rfl
  | cons x xs ih =>
    rw [List.mapM_cons, h x (List.mem_cons_self x xs),
      ih (fun a ha => h a (List.mem_cons_of_mem x ha))]
    rfl

theorem findColIdx_nil (key : String) :
    findColIdx [] key = .error "KeyError" := rfl

theorem findColIdx_cons (x : String) (xs : List String) (key : String) :
    findColIdx (x :: xs) key =
      if x = key then .ok 0
      else
        match findColIdx xs key with
        | .ok i => .ok (i + 1)
        | .error e => .error e := rfl

theorem findColIdx_of_mem (ks : List String) (key : String) (h : key ∈ ks) :
    findColIdx ks key = .ok (colFieldIdx ks key) ∧
    colFieldIdx ks key < ks.length := by
  induction ks with
  | nil => simp at h
  | cons x xs ih =>
    by_cases hx : x = key
    · have hf : findColIdx (x :: xs) key = .ok 0 := by
        rw [findColIdx_cons, if_pos hx]
      have hc : colFieldIdx (x :: xs) key = 0 := by
        unfold colFieldIdx
        rw [hf]
      rw [hf, hc]
      exact ⟨rfl, by simp⟩
    · have hmem : key ∈ xs := by
        rcases List.mem_cons.mp h with rfl | hmem
        · exact absurd rfl hx
        · exact hmem
      rcases ih hmem with ⟨hfind, hlt⟩
      have hf : findColIdx (x :: xs) key = .ok (colFieldIdx xs key + 1) := by
        rw [findColIdx_cons, if_neg hx, hfind]
      have hc : colFieldIdx (x :: xs) key = colFieldIdx xs key + 1 := by
        unfold colFieldIdx
        rw [hf, hfind]
      rw [hf, hc]
      exact ⟨rfl, by simpa using Nat.succ_lt_succ hlt⟩

theorem findColIdx_append_left (ks more : List String) (key : String) (i : ℕ)
    (h : findColIdx ks key = .ok i) :
    findColIdx (ks ++ more) key = .ok i := by
  induction ks generalizing i with
  | nil =>
    rw [findColIdx_nil] at h
    cases h
  | cons x xs ih =>
    rw [List.cons_append, findColIdx_cons]
    rw [findColIdx_cons] at h
    by_cases hx : x = key
    · rw [if_pos hx] at h ⊢
      exact h
    · rw [if_neg hx] at h ⊢
      cases hf : findColIdx xs key with
      | ok j =>
        rw [hf] at h
        rw [ih j hf]
        exact h
      | error e =>
        rw [hf] at h
        cases h

theorem getColumn_ok (colNames : List String) (rows : List (List ℚ))
    (key : String) (i : ℕ) (hidx : findColIdx colNames key = .ok i)
    (hlen : ∀ r ∈ rows, i < r.length) :
    getColumn colNames rows key = .ok (rows.map (fun r => r.getD i 0)) := by
  unfold getColumn
  rw [hidx]
  apply mapM_ok_of_forall
  intro r hr
  cases hg : r.get? i with
  | none =>
    have := List.get?_eq_none.mp hg
    have := hlen r hr
    omega
  | some v =>
    have hv : r.getD i 0 = v := by
      rw [List.getD_eq_get?, hg]
      rfl
    rw [hv]

theorem foldl_first_argmax (f : ℕ → ℚ) (n : ℕ) :
    ((List.range n).foldl (fun b i => if f b < f i then i else b) 0 = 0 ∨
      (List.range n).foldl (fun b i => if f b < f i then i else b) 0 < n) ∧
    (∀ i < n, f i ≤ f ((List.range n).foldl (fun b i => if f b < f i then i else b) 0)) ∧
    ∀ j < (List.range n).foldl (fun b i => if f b < f i then i else b) 0,
      f j < f ((List.range n).foldl (fun b i => if f b < f i then i else b) 0) := by
  induction n with
  | zero => simp
  | succ n ih =>
    rw [List.range_succ, List.foldl_append, List.foldl_cons, List.foldl_nil]
    rcases ih with ⟨hb, hmax, hfirst⟩
    by_cases h : f ((List.range n).foldl (fun b i => if f b < f i then i else b) 0) < f n
    · rw [if_pos h]
      refine ⟨Or.inr (Nat.lt_succ_self n), ?_, ?_⟩
      · intro i hi
        rcases Nat.lt_succ_iff_lt_or_eq.mp hi with hi' | rfl
        · exact le_of_lt (lt_of_le_of_lt (hmax i hi') h)
        · exact le_refl _
      · intro j hj
        exact lt_of_le_of_lt (hmax j hj) h
    · rw [if_neg h]
      refine ⟨?_, ?_, hfirst⟩
      · rcases hb with h0 | hlt
        · exact Or.inl h0
        · exact Or.inr (Nat.lt_succ_of_lt hlt)
      · intro i hi
        rcases Nat.lt_succ_iff_lt_or_eq.mp hi with hi' | rfl
        · exact hmax i hi'
        · exact not_lt.mp h

theorem npArgmax_le (l : List ℚ) :
    ∀ a < l.length, l.getD a 0 ≤ l.getD (npArgmax l) 0 :=
  (foldl_first_argmax (fun i => l.getD i 0) l.length).2.1

theorem npArgmax_first (l : List ℚ) :
    ∀ j < npArgmax l, l.getD j 0 < l.getD (npArgmax l) 0 :=
  (foldl_first_argmax (fun i => l.getD i 0) l.length).2.2

theorem npArgmax_bound (l : List ℚ) : npArgmax l = 0 ∨ npArgmax l < l.length :=
  (foldl_first_argmax (fun i => l.getD i 0) l.length).1

theorem getD_mem_of_lt (l : List ℚ) (i : ℕ) (d : ℚ) (h : i < l.length) :
    l.getD i d ∈ l := by
  rw [List.getD_eq_get?, List.get?_eq_get h]
  exact List.get_mem l i h

theorem npArgmax_const (l : List ℚ) (cst : ℚ) (h : ∀ x ∈ l, x = cst) :
    npArgmax l = 0 := by
  rcases npArgmax_bound l with h0 | hlt
  · exact h0
  · by_contra hne
    have hpos : 0 < npArgmax l := Nat.pos_of_ne_zero hne
    have hfirst := npArgmax_first l 0 hpos
    have h1 : l.getD 0 0 = cst := h _ (getD_mem_of_lt l 0 0 (by omega))
    have h2 : l.getD (npArgmax l) 0 = cst := h _ (getD_mem_of_lt l _ 0 hlt)
    rw [h1, h2] at hfirst
    exact lt_irrefl cst hfirst

theorem get?_map_getD (rows : List (List ℚ)) (i idx : ℕ) (h : idx < rows.length) :
    (rows.map (fun r => r.getD i 0)).get? idx =
      some ((rows.getD idx []).getD i 0) := by
  rw [List.get?_map, List.get?_eq_get h]
  have hrow : rows.getD idx [] = rows.get ⟨idx, h⟩ := by
    rw [List.getD_eq_get?, List.get?_eq_get h]
    rfl
  rw [hrow]
  rfl

/-- C8: after `run()` has completed, `get_max_det_stat` (and `get_max_twoF`,
which is the same lookup on the `twoF` column) returns the parameter values
and statistic of the row maximizing the detection statistic; when several
rows tie for the maximum, the first such row in iteration order is returned;
in particular with a constant statistic column the maximizing row is the
first grid point and the returned statistic is that constant. -/
theorem get_max_det_stat_first_max (colNames : List String)
    (rows : List (List ℚ)) (detstat : String)
    (hdet : detstat ∈ colNames)
    (hwide : ∀ r ∈ rows, colNames.length ≤ r.length)
    (hne : rows ≠ []) :
    ∃ col,
      getColumn colNames rows detstat = .ok col ∧
      col = rows.map (fun r => r.getD (colFieldIdx colNames detstat) 0) ∧
      (∀ a < col.length, col.getD a 0 ≤ col.getD (npArgmax col) 0) ∧
      (∀ j < npArgmax col, col.getD j 0 < col.getD (npArgmax col) 0) ∧
      getMaxDetStat colNames rows detstat =
        .ok (colNames.map (fun key =>
          (key, (rows.getD (npArgmax col) []).getD (colFieldIdx colNames key) 0))) ∧
      getMaxTwoF colNames rows = getMaxDetStat colNames rows "twoF" ∧
      ∀ cst : ℚ, (∀ x ∈ col, x = cst) →
        npArgmax col = 0 ∧ col.getD (npArgmax col) 0 = cst := by
  rcases findColIdx_of_mem colNames detstat hdet with ⟨hfind, hlt⟩
  have hwide' : ∀ r ∈ rows, colFieldIdx colNames detstat < r.length :=
    fun r hr => lt_of_lt_of_le hlt (hwide r hr)
  have hcol := getColumn_ok colNames rows detstat _ hfind hwide'
  set col := rows.map (fun r => r.getD (colFieldIdx colNames detstat) 0) with hcoldef
  have hcollen : col.length = rows.length := by
    rw [hcoldef, List.length_map]
  have hrowslen : 0 < rows.length := List.length_pos.mpr hne
  have hidxlt : npArgmax col < rows.length := by
    rcases npArgmax_bound col with h0 | hb
    · omega
    · omega
  have hmain : getMaxDetStat colNames rows detstat =
      .ok (colNames.map (fun key =>
        (key, (rows.getD (npArgmax col) []).getD (colFieldIdx colNames key) 0))) := by
    unfold getMaxDetStat
    rw [hcol]
    apply mapM_ok_of_forall
    intro key hk
    rcases findColIdx_of_mem colNames key hk with ⟨hfindk, hltk⟩
    have hwidek : ∀ r ∈ rows, colFieldIdx colNames key < r.length :=
      fun r hr => lt_of_lt_of_le hltk (hwide r hr)
    simp only [getColumn_ok colNames rows key _ hfindk hwidek,
      get?_map_getD rows (colFieldIdx colNames key) (npArgmax col) hidxlt]
  have hconstpart : ∀ cst : ℚ, (∀ x ∈ col, x = cst) →
      npArgmax col = 0 ∧ col.getD (npArgmax col) 0 = cst := by
    intro cst hcst
    have h0 := npArgmax_const col cst hcst
    refine ⟨h0, ?_⟩
    rw [h0]
    exact hcst _ (getD_mem_of_lt col 0 0 (by omega))
  exact ⟨col, hcol, rfl, npArgmax_le col, npArgmax_first col, hmain, rfl, hconstpart⟩

/-- Witness for C8: two grid rows with a constant statistic column; the
maximum returned is the value at the first row. -/
theorem get_max_det_stat_first_max_witness :
    getMaxDetStat ["F0", "twoF"] [[10, 5], [11, 5]] "twoF" =
      .ok [("F0", 10), ("twoF", 5)] := by
  have h := get_max_det_stat_first_max ["F0", "twoF"] [[10, 5], [11, 5]] "twoF"
    (by simp)
    (by
      intro r hr
      simp only [List.mem_cons, List.not_mem_nil, or_false] at hr
      rcases hr with rfl | rfl <;> simp)
    (by simp)
  rcases h with ⟨col, hcol, hcoldef, hle, hfirst, hmain, htwoF, hconst⟩
  have hcolval : col = [5, 5] := by
    rw [hcoldef]
    rfl
  have hidx : npArgmax col = 0 :=
    (hconst 5 (by
      rw [hcolval]
      intro x hx
      simp only [List.mem_cons, List.not_mem_nil, or_false] at hx
      rcases hx with rfl | rfl <;> rfl)).1
  rw [hmain, hidx]
  rfl

theorem setxor1d_self (l : List String) : setxor1d l l = [] :=
  (setxor1d_eq_nil_iff l l).mpr (fun _ => Iff.rfl)

theorem mem_zip_same {α : Type} (l : List α) (p : α × α) (hp : p ∈ l.zip l) :
    p.1 = p.2 := by
  induction l with
  | nil => simp at hp
  | cons x xs ih =>
    rw [List.zip_cons_cons] at hp
    rcases List.mem_cons.mp hp with rfl | hp'
    · rfl
    · exact ih hp'

theorem allclose_self (xs : List ℚ) (r a : ℚ) (hr : 0 ≤ r) (ha : 0 ≤ a) :
    allclose xs xs r a = true := by
  unfold allclose
  rw [Bool.and_eq_true]
  refine ⟨by simp, ?_⟩
  rw [List.all_eq_true]
  intro p hp
  have hpe := mem_zip_same xs p hp
  rw [decide_eq_true_eq, hpe, sub_self, abs_zero]
  have h1 : 0 ≤ r * |p.2| := mul_nonneg hr (abs_nonneg _)
  linarith

theorem cartProd_row_length (ls : List (List ℚ)) (p : List ℚ)
    (hp : p ∈ cartProd ls) : p.length = ls.length := by
  induction ls generalizing p with
  | nil =>
    simp only [cartProd, List.mem_singleton] at hp
    rw [hp]
    rfl
  | cons xs rest ih =>
    simp only [cartProd, List.mem_flatMap, List.mem_map] at hp
    rcases hp with ⟨v, hv, t, ht, rfl⟩
    simp [ih t ht]

theorem checkOldData_cache_hit (old : SavedFile)
    (sftMtimes : Option (List ℤ)) (outMtime : ℤ)
    (newParamLines searchKeys : List String) (inputData : List (List ℚ))
    (fmts : List (String × String)) (f : List ℚ → ℚ)
    (tols : List (String × ℚ) × List (String × ℚ))
    (hsft : sftFreshness sftMtimes outMtime = .ok true)
    (hhdr : old.headerLines = newParamLines)
    (hcols : old.colNames = searchKeys ++ ["twoF"])
    (hrows : old.rows = inputData.map (fun p => p ++ [f p]))
    (hwf : ∀ p ∈ inputData, p.length = searchKeys.length)
    (htols : toleranceDicts fmts = .ok tols)
    (hkeys : searchKeys.all (tolOkFor tols) = true) :
    checkOldDataIsOkayToUse false (some old) sftMtimes outMtime
      newParamLines searchKeys inputData fmts = .ok (.reuse old) := by
  have h1 : setxor1d old.headerLines newParamLines = [] := by
    rw [hhdr]
    exact setxor1d_self _
  have h2 : old.rows.length = inputData.length := by
    rw [hrows, List.length_map]
  have h3 : ¬ old.colNames.length < searchKeys.length := by
    rw [hcols, List.length_append]
    simp
  have hcolmatch :
      searchKeys.mapM (fun key =>
        (match getColumn old.colNames old.rows key with
        | .error e => .error e
        | .ok oldCol =>
          match getColumn searchKeys inputData key with
          | .error e => .error e
          | .ok newCol =>
            match dictGet tols.1 key with
            | .error e => .error e
            | .ok r =>
              match dictGet tols.2 key with
              | .error e => .error e
              | .ok a => .ok (allclose oldCol newCol r a) :
          Except String Bool)) = .ok (searchKeys.map (fun _ => true)) := by
    apply mapM_ok_of_forall
    intro key hk
    rcases findColIdx_of_mem searchKeys key hk with ⟨hfk, hlk⟩
    have hfk' : findColIdx old.colNames key = .ok (colFieldIdx searchKeys key) := by
      rw [hcols]
      exact findColIdx_append_left _ _ _ _ hfk
    have hOld : getColumn old.colNames old.rows key =
        .ok (old.rows.map (fun r => r.getD (colFieldIdx searchKeys key) 0)) := by
      apply getColumn_ok _ _ _ _ hfk'
      intro r hr
      rw [hrows] at hr
      rcases List.mem_map.mp hr with ⟨p, hp, rfl⟩
      rw [List.length_append, hwf p hp]
      simp only [List.length_singleton]
      omega
    have hNew : getColumn searchKeys inputData key =
        .ok (inputData.map (fun r => r.getD (colFieldIdx searchKeys key) 0)) := by
      apply getColumn_ok _ _ _ _ hfk
      intro r hr
      rw [hwf r hr]
      exact hlk
    have hEq : old.rows.map (fun r => r.getD (colFieldIdx searchKeys key) 0) =
        inputData.map (fun r => r.getD (colFieldIdx searchKeys key) 0) := by
      rw [hrows, List.map_map]
      apply List.map_congr_left
      intro p hp
      simp only [Function.comp_apply]
      rw [List.getD_append]
      rw [hwf p hp]
      exact hlk
    rw [List.all_eq_true] at hkeys
    have htk := hkeys key hk
    unfold tolOkFor at htk
    cases hr1 : dictGet tols.1 key with
    | error e => rw [hr1] at htk; cases htk
    | ok r =>
      cases hr2 : dictGet tols.2 key with
      | error e => rw [hr1, hr2] at htk; cases htk
      | ok a =>
        rw [hr1, hr2, Bool.and_eq_true, decide_eq_true_eq, decide_eq_true_eq] at htk
        simp only [hOld, hNew, hr1, hr2, hEq]
        rw [allclose_self _ r a htk.1 htk.2]
  simp [checkOldDataIsOkayToUse, hsft, h1, h2, h3, htols]
  have hcolmatch' : List.mapM.loop
      (fun key =>
        (match getColumn old.colNames old.rows key with
        | .error e => .error e
        | .ok oldCol =>
          match getColumn searchKeys inputData key with
          | .error e => .error e
          | .ok newCol =>
            match dictGet tols.1 key with
            | .error e => .error e
            | .ok r =>
              match dictGet tols.2 key with
              | .error e => .error e
              | .ok a => .ok (allclose oldCol newCol r a) :
          Except String Bool)) searchKeys [] =
      .ok (searchKeys.map (fun _ => true)) := hcolmatch
  rw [hcolmatch']
  simp

theorem checkOldData_no_file (sftMtimes : Option (List ℤ)) (outMtime : ℤ)
    (newParamLines searchKeys : List String) (inputData : List (List ℚ))
    (fmts : List (String × String)) :
    checkOldDataIsOkayToUse false none sftMtimes outMtime
      newParamLines searchKeys inputData fmts = .ok .noReuse := rfl

/-- C2: cache round-trip. After a first run (from an empty store) has saved
its results, a second run with the identical configuration (same grid
specification, same fingerprint lines, same formats) and fresh source data
returns the stored table as-is from cache validation: the result is the same
table as the first run's, the store is unchanged, the evaluator is called
zero times, and the outcome does not depend on the second run's evaluator
`ev'` at all. -/
theorem grid_cache_roundtrip (cfg : GridConfig) (sftMtimes : Option (List ℤ))
    (outMtime : ℤ) (ev ev' : List ℚ → ℚ)
    (tols : List (String × ℚ) × List (String × ℚ))
    (hclean : cfg.clean = false)
    (hax : cfg.axes.length = cfg.searchKeys.length)
    (hsft : sftFreshness sftMtimes outMtime = .ok true)
    (htols : toleranceDicts cfg.fmts = .ok tols)
    (hkeys : cfg.searchKeys.all (tolOkFor tols) = true) :
    runGrid cfg sftMtimes outMtime none ev =
      .ok ⟨(cartProd (cfg.axes.map (getArrayFromTuple cfg.input_arrays))).map
             (fun p => p ++ [ev p]),
           some ⟨cfg.paramLines, outputColNames cfg.searchKeys,
             (cartProd (cfg.axes.map (getArrayFromTuple cfg.input_arrays))).map
               (fun p => p ++ [ev p])⟩,
           ((cartProd (cfg.axes.map (getArrayFromTuple cfg.input_arrays))).map
             (fun p => p ++ [ev p])).length⟩ ∧
    runGrid cfg sftMtimes outMtime
      (some ⟨cfg.paramLines, outputColNames cfg.searchKeys,
        (cartProd (cfg.axes.map (getArrayFromTuple cfg.input_arrays))).map
          (fun p => p ++ [ev p])⟩) ev' =
      .ok ⟨(cartProd (cfg.axes.map (getArrayFromTuple cfg.input_arrays))).map
             (fun p => p ++ [ev p]),
           some ⟨cfg.paramLines, outputColNames cfg.searchKeys,
             (cartProd (cfg.axes.map (getArrayFromTuple cfg.input_arrays))).map
               (fun p => p ++ [ev p])⟩,
           0⟩ := by
  constructor
  · simp [runGrid, hclean, checkOldData_no_file]
  · have hwf : ∀ p ∈ cartProd (cfg.axes.map (getArrayFromTuple cfg.input_arrays)),
        p.length = cfg.searchKeys.length := by
      intro p hp
      rw [cartProd_row_length _ p hp, List.length_map, hax]
    have hhit := checkOldData_cache_hit
      ⟨cfg.paramLines, outputColNames cfg.searchKeys,
        (cartProd (cfg.axes.map (getArrayFromTuple cfg.input_arrays))).map
          (fun p => p ++ [ev p])⟩
      sftMtimes outMtime cfg.paramLines cfg.searchKeys
      (cartProd (cfg.axes.map (getArrayFromTuple cfg.input_arrays))) cfg.fmts ev tols
      hsft rfl rfl rfl hwf htols hkeys
    simp [runGrid, hclean, hhit]

theorem axis0_expansion : getArrayFromTuple false [10, 10002/1000, 1/1000] =
    [10, 10001/1000, 10002/1000] := by
  norm_num [getArrayFromTuple, pyInt, linspace]
  rw [show Int.toNat 3 = 3 from rfl]
  norm_num [List.range_succ]

/-- Witness for C2 at the spec's end-to-end configuration: the grid
`{F0: (10.0, 10.002, 0.001), Alpha: [0.5]}` with a constant-1.0 evaluator
yields the 3-row table with `F0` in 10.000, 10.001, 10.002 and statistic
column 1.0 throughout; re-running against the saved output with a completely
different evaluator is a full cache hit: zero evaluator calls and the
identical table. -/
theorem grid_cache_roundtrip_witness :
    runGrid cfg0 none 0 none (fun _ => 1) = .ok ⟨table0, some saved0, 3⟩ ∧
    runGrid cfg0 none 0 (some saved0) (fun _ => 37) = .ok ⟨table0, some saved0, 0⟩ := by
  have h16 : (0 : ℚ) ≤ 10 ^ ((1 : ℤ) - ((16 : ℕ) : ℤ)) := by positivity
  have h9 : (0 : ℚ) ≤ 10 ^ ((1 : ℤ) - ((9 : ℕ) : ℤ)) := by positivity
  have htols : toleranceDicts cfg0.fmts =
      .ok ([("F0", (10 : ℚ) ^ ((1 : ℤ) - ((16 : ℕ) : ℤ))),
            ("Alpha", (10 : ℚ) ^ ((1 : ℤ) - ((16 : ℕ) : ℤ))),
            ("twoF", (10 : ℚ) ^ ((1 : ℤ) - ((9 : ℕ) : ℤ)))],
           [("F0", 0), ("Alpha", 0), ("twoF", 0)]) := rfl
  have hkeys : cfg0.searchKeys.all (tolOkFor
      ([("F0", (10 : ℚ) ^ ((1 : ℤ) - ((16 : ℕ) : ℤ))),
        ("Alpha", (10 : ℚ) ^ ((1 : ℤ) - ((16 : ℕ) : ℤ))),
        ("twoF", (10 : ℚ) ^ ((1 : ℤ) - ((9 : ℕ) : ℤ)))],
       [("F0", 0), ("Alpha", 0), ("twoF", 0)])) = true := by
    simp [cfg0, tolOkFor, dictGet, h16]
    positivity
  have h := grid_cache_roundtrip cfg0 none 0 (fun _ => 1) (fun _ => 37) _
    rfl rfl rfl htols hkeys
  have harr : cartProd (cfg0.axes.map (getArrayFromTuple cfg0.input_arrays)) =
      [[10, 1/2], [10001/1000, 1/2], [10002/1000, 1/2]] := by
    rw [show cfg0.axes = [[10, 10002/1000, 1/1000], [1/2]] from rfl]
    rw [show cfg0.input_arrays = false from rfl]
    rw [List.map_cons, List.map_cons, List.map_nil, axis0_expansion]
    rfl
  rw [harr] at h
  exact h

/-- C5 (code bug): when the stored output table has fewer columns than the
current input parameter grid, `check_old_data_is_okay_to_use` is meant to log
a reason and return False (not reusable), but the log message evaluates
`np.shape(old_data)[1]` on the 1-D structured array (shape `(nrows,)`), so an
`IndexError` is raised before the `return False` line is reached. Evaluated
here at a stored 1-column table against a 2-column input grid with all
earlier checks passing. -/
theorem fewer_columns_check_raises :
    checkOldDataIsOkayToUse false
      (some ⟨["label = test"], ["F0"], [[10]]⟩) none 0
      ["label = test"] ["F0", "Alpha"] [[10, 1/2]]
      [("F0", "%.16g"), ("Alpha", "%.16g")] =
      .error "IndexError: tuple index out of range" := rfl

/-- C9: for every `GridSearch` configured with `clean=True`, `run()` raises
before any evaluator call: `_get_input_data_array` creates `input_data` only
when `clean` is false, and `run()` evaluates `np.shape(iterable)[0]` on the
generator iterable (the empty shape tuple), raising `IndexError`; the
outcome is the same error for every evaluator, so the evaluator is never
invoked. -/
theorem run_clean_raises (cfg : GridConfig) (sftMtimes : Option (List ℤ))
    (outMtime : ℤ) (store : Option SavedFile) (ev ev' : List ℚ → ℚ)
    (hclean : cfg.clean = true) :
    runGrid cfg sftMtimes outMtime store ev =
      .error "IndexError: tuple index out of range" ∧
    runGrid cfg sftMtimes outMtime store ev =
      runGrid cfg sftMtimes outMtime store ev' := by
  constructor <;> simp [runGrid, hclean, tupleIndex, npShapeGenerator]

/-- Witness for C9 at a one-axis clean configuration. -/
theorem run_clean_raises_witness :
    runGrid ⟨["F0"], [[1]], false, true, [], []⟩ none 0 none (fun _ => 0) =
      .error "IndexError: tuple index out of range" :=
  (run_clean_raises ⟨["F0"], [[1]], false, true, [], []⟩ none 0 none
    (fun _ => 0) (fun _ => 0) rfl).1
